import Mathlib

/-!
# bewatermyfriend.c: the ASCII renderer, the audio queue and the playback loop

A shallow embedding of `frame_to_ascii`, `init_player`, `queue_audio` and the loop of
`main`. Library calls (libav*, SDL, curses) are not part of the program: what they
answer is an input of the model and the calls the program makes are its output.
-/

namespace BeWaterMyFriend

/-! ## Single-precision arithmetic used by `frame_to_ascii`

The `float` expressions of `frame_to_ascii` are evaluated in IEEE-754 binary32
(`FLT_EVAL_METHOD` 0, as on x86-64 and AArch64); a `float` value is the rational
number it denotes. -/

/-- Nearest integer to `y`, a tie going to the even neighbour. -/
def roundTiesEven (y : ℚ) : ℤ :=
  let f := ⌊y⌋
  let r := y - f
  if r < 1 / 2 then f
  else if 1 / 2 < r then f + 1
  else if f % 2 = 0 then f else f + 1

/-- Rounding of a real value to the nearest `float` (IEEE-754 binary32, 24-bit
significand, round to nearest, ties to even, gradual underflow below `2^-126`).
Finite results only: every value `frame_to_ascii` forms from `int` operands stays
far below the overflow threshold `2^128`. -/
def f32_round (q : ℚ) : ℚ :=
  if q = 0 then 0
  else
    let e := max (Int.log 2 |q| - 23) (-149)
    (roundTiesEven (q / 2 ^ e) : ℚ) * 2 ^ e

/-- The conversion `(float)i` of an `int`. -/
def f32_of_int (i : Int) : ℚ := f32_round (i : ℚ)

/-- Single-precision division `a / b`. -/
def f32_div (a b : ℚ) : ℚ := f32_round (a / b)

/-- Single-precision multiplication `a * b`. -/
def f32_mul (a b : ℚ) : ℚ := f32_round (a * b)

def INT_MAX : Int := 2147483647

def INT_MIN : Int := -2147483648

/-- Reduction modulo `2^32` into the range of `int`: the narrowing conversion `(int)v`
of an `int64_t`, and the value of an `int` expression whose exact result leaves the
range. -/
def to_int (v : Int) : Int := (v + 2147483648) % 4294967296 - 2147483648

/-- The conversion `(int)v` of a `float`: the fraction is discarded (truncation
toward zero). When the truncated value does not fit in `int` the C standard leaves
the conversion undefined; the value returned then is the one the x86-64 conversion
instruction produces, `INT_MIN`. For every viewport `getmaxyx` can report the value
converted in `frame_to_ascii` is in range (`axis_product_bounds`). -/
def f32_to_int (v : ℚ) : Int :=
  let t : Int := if 0 ≤ v then ⌊v⌋ else ⌈v⌉
  if INT_MIN ≤ t ∧ t ≤ INT_MAX then t else INT_MIN

/-! ## Frames, the terminal surface and the renderer -/

/-- The fields of an `AVFrame` the program reads: the bytes of plane 0 by offset
(`data[0][i]`, each a `uint8_t`), the row stride `linesize[0]` and `nb_samples`. -/
structure AVFrame where
  data : Int → Nat
  linesize : Int
  nb_samples : Int

/-- Calls made on the curses surface. -/
inductive ScreenOp where
  | mvaddch (y x : Int) (ch : Char)
  | refresh
  deriving DecidableEq, Repr

/-- The ramp `ASCII_CHARS = " .:-=+*#%@"`. -/
def ASCII_CHARS : List Char := " .:-=+*#%@".toList

/-- Length of a C string: `strlen`. -/
def strlen (s : List Char) : Int := s.length

/-- Read of one `uint8_t` of plane 0. -/
def AVFrame.byte (frame : AVFrame) (idx : Int) : Int := (frame.data idx % 256 : Nat)

/-- `int brightness = (r + g + b) / 3;` -/
def brightness (r g b : Int) : Int := Int.tdiv (r + g + b) 3

/-- `int char_idx = brightness * ((int)strlen(ASCII_CHARS) - 1) / 255;` -/
def char_idx (brightness : Int) : Int :=
  Int.tdiv (brightness * (strlen ASCII_CHARS - 1)) 255

/-- Lines 59-62 of `frame_to_ascii`: the source coordinates sampled for the cell
`(x, y)`, after the two clamping statements. -/
def sample_coords (width height : Int) (scale_x scale_y : ℚ) (x y : Int) : Int × Int :=
  let frame_x := f32_to_int (f32_mul (f32_of_int x) scale_x)
  let frame_y := f32_to_int (f32_mul (f32_of_int y) scale_y)
  let frame_x := if frame_x ≥ width then width - 1 else frame_x
  let frame_y := if frame_y ≥ height then height - 1 else frame_y
  (frame_x, frame_y)

/-- Lines 54-55: `scale_x` and `scale_y` for a viewport of `console_width` columns and
`console_height` rows. -/
def scales (width height console_width console_height : Int) : ℚ × ℚ :=
  (f32_div (f32_of_int width) (f32_of_int console_width),
   f32_div (f32_of_int height) (f32_of_int console_height))

/-- Lines 64-69: the ramp index computed from the pixel at `(frame_x, frame_y)`; the
offsets are `int` expressions. -/
def pixel_char_idx (frame : AVFrame) (frame_x frame_y : Int) : Int :=
  let idx := to_int (frame_y * frame.linesize + frame_x * 3)
  let r := frame.byte idx
  let g := frame.byte (to_int (idx + 1))
  let b := frame.byte (to_int (idx + 2))
  char_idx (brightness r g b)

/-- Body of the inner loop of `frame_to_ascii` (lines 59-70) for the cell `(x, y)`. -/
def ascii_cell (frame : AVFrame) (width height : Int) (scale_x scale_y : ℚ)
    (y x : Int) : ScreenOp :=
  let c := sample_coords width height scale_x scale_y x y
  let i := pixel_char_idx frame c.1 c.2
  ScreenOp.mvaddch y x (ASCII_CHARS.getD i.toNat (Char.ofNat 0))

/-- The function `frame_to_ascii(frame, width, height)` on a surface for which
`getmaxyx` reports `console_height` rows and `console_width` columns: the surface
calls it makes, in order. -/
def frame_to_ascii (frame : AVFrame) (width height : Int)
    (console_width console_height : Int) : List ScreenOp :=
  let s := scales width height console_width console_height
  ((List.range console_height.toNat).flatMap fun (y : Nat) =>
    (List.range console_width.toNat).map fun (x : Nat) =>
      ascii_cell frame width height s.1 s.2 (y : Int) (x : Int))
  ++ [ScreenOp.refresh]


/-- The cell a surface call writes to, if it writes. -/
def ScreenOp.cell : ScreenOp → Option (Int × Int)
  | ScreenOp.mvaddch y x _ => some (y, x)
  | ScreenOp.refresh => none

/-! ## Session state and initialisation -/

/-- The sample formats of libavutil the program can meet. -/
inductive AVSampleFormat where
  | NONE | U8 | S16 | S32 | FLT | DBL
  deriving DecidableEq, Repr, Inhabited

/-- Sample width in bytes: `av_get_bytes_per_sample`. -/
def av_get_bytes_per_sample : AVSampleFormat → Int
  | AVSampleFormat.NONE => 0
  | AVSampleFormat.U8 => 1
  | AVSampleFormat.S16 => 2
  | AVSampleFormat.S32 => 4
  | AVSampleFormat.FLT => 4
  | AVSampleFormat.DBL => 8

inductive AVMediaType where
  | VIDEO | AUDIO | OTHER
  deriving DecidableEq, Repr, Inhabited

/-- One stream of the opened container: its `codecpar` fields and what libavcodec
answers for it (`avcodec_find_decoder` returning a decoder, `avcodec_open2`
succeeding). -/
structure Stream where
  codec_type : AVMediaType
  decoder_found : Bool
  open_ok : Bool
  width : Int
  height : Int
  sample_rate : Int
  nb_channels : Int
  sample_fmt : AVSampleFormat
  deriving DecidableEq, Repr, Inhabited

/-- Fields of an opened `AVCodecContext` the program reads. -/
structure AVCodecContext where
  width : Int
  height : Int
  sample_rate : Int
  nb_channels : Int
  sample_fmt : AVSampleFormat
  deriving DecidableEq, Repr

/-- Options set on the resampler before `swr_init`. -/
structure SwrContext where
  in_nb_channels : Int
  out_nb_channels : Int
  in_sample_rate : Int
  out_sample_rate : Int
  in_sample_fmt : AVSampleFormat
  out_sample_fmt : AVSampleFormat
  deriving DecidableEq, Repr

/-- A sample buffer as allocated by `av_samples_alloc`: the channel count and the
number of samples per channel it was sized for. -/
structure SampleBuffer where
  nb_channels : Int
  nb_samples : Int
  deriving DecidableEq, Repr

/-- The struct `PlayerState`. Pointers are options (`none` is `NULL`);
`audio_dst_data` is the buffer `audio_dst_data[0]` points to. The fields `pkt`,
`frame`, `rgb_frame` and `audio_dst_linesize` carry no information the modelled
functions branch on and are left out. -/
structure PlayerState where
  format_ctx : Bool
  video_codec_ctx : Option AVCodecContext
  audio_codec_ctx : Option AVCodecContext
  video_stream_index : Int
  audio_stream_index : Int
  sws_ctx : Bool
  swr_ctx : Option SwrContext
  audio_dev : Nat
  out_sample_rate : Int
  out_sample_fmt : AVSampleFormat
  out_channels : Int
  audio_dst_data : Option SampleBuffer
  max_dst_nb_samples : Int
  quit : Int
  deriving DecidableEq, Repr

/-- The state after `memset(&state, 0, sizeof(state))` in `main`; the sample format
with value 0 is `AV_SAMPLE_FMT_U8`. -/
def PlayerState.zero : PlayerState :=
  { format_ctx := false, video_codec_ctx := none, audio_codec_ctx := none,
    video_stream_index := 0, audio_stream_index := 0, sws_ctx := false, swr_ctx := none,
    audio_dev := 0, out_sample_rate := 0, out_sample_fmt := AVSampleFormat.U8,
    out_channels := 0, audio_dst_data := none, max_dst_nb_samples := 0, quit := 0 }

/-- What the libraries answer during `init_player`: whether the container opens and
has stream info, its streams, whether the resampler allocates and initialises,
whether SDL initialises, the device id `SDL_OpenAudioDevice` returns (0 on failure),
the sample rate and channel count the audio hardware runs at, and whether the first
sample buffer allocates. -/
structure InitEnv where
  open_input_ok : Bool
  stream_info_ok : Bool
  streams : List Stream
  swr_alloc_ok : Bool
  swr_init_ok : Bool
  sdl_init_ok : Bool
  audio_dev : Nat
  device_freq : Int
  device_channels : Int
  samples_alloc_ok : Bool
  deriving DecidableEq, Repr

/-- The stream loop of `init_player` (lines 91-98) from stream `i` on, on the pair
`(video_stream_index, audio_stream_index)`. -/
def scan_streams : List Stream → Nat → Int × Int → Int × Int
  | [], _, idx => idx
  | s :: rest, i, idx =>
    if s.codec_type = AVMediaType.VIDEO ∧ idx.1 = -1 then scan_streams rest (i + 1) ((i : Int), idx.2)
    else if s.codec_type = AVMediaType.AUDIO ∧ idx.2 = -1 then
      scan_streams rest (i + 1) (idx.1, (i : Int))
    else scan_streams rest (i + 1) idx

/-- The parameters of stream `i`: `format_ctx->streams[i]->codecpar`. -/
def codecpar (env : InitEnv) (i : Int) : Stream := env.streams.getD i.toNat default

/-- The context `avcodec_alloc_context3` and `avcodec_parameters_to_context` build. -/
def Stream.to_context (s : Stream) : AVCodecContext :=
  { width := s.width, height := s.height, sample_rate := s.sample_rate,
    nb_channels := s.nb_channels, sample_fmt := s.sample_fmt }

/-- The call `SDL_OpenAudioDevice(NULL, 0, &want, &have, allowed_changes)` of SDL2:
the device id and the `have.freq` and `have.channels` it fills in. SDL keeps a
requested value in `have` and converts behind the scenes, unless the matching flag of
`allowed_changes` (`SDL_AUDIO_ALLOW_FREQUENCY_CHANGE` is 1,
`SDL_AUDIO_ALLOW_CHANNELS_CHANGE` is 4) lets it report the hardware's value. -/
def SDL_OpenAudioDevice (env : InitEnv) (want_freq want_channels : Int)
    (allowed_changes : Nat) : Nat × Int × Int :=
  (env.audio_dev,
   if allowed_changes % 2 = 1 then env.device_freq else want_freq,
   if allowed_changes / 4 % 2 = 1 then env.device_channels else want_channels)

/-- Lines 128-204 of `init_player`, entered when an audio stream was found: `-1`
with the state reached when a step fails, `0` with the state to continue from. -/
def init_player_audio (state : PlayerState) (env : InitEnv) : Int × PlayerState :=
  let audio_codec_params := codecpar env state.audio_stream_index
  if ¬ audio_codec_params.decoder_found then (-1, state)
  else
    let state := { state with audio_codec_ctx := some audio_codec_params.to_context }
    if ¬ audio_codec_params.open_ok then (-1, state)
    else if ¬ env.swr_alloc_ok then (-1, state)
    else
      let out_ch_nb_channels : Int := 2
      let swr : SwrContext :=
        { in_nb_channels := audio_codec_params.to_context.nb_channels,
          out_nb_channels := out_ch_nb_channels,
          in_sample_rate := audio_codec_params.to_context.sample_rate,
          out_sample_rate := state.out_sample_rate,
          in_sample_fmt := audio_codec_params.to_context.sample_fmt,
          out_sample_fmt := state.out_sample_fmt }
      let state := { state with swr_ctx := some swr }
      if ¬ env.swr_init_ok then (-1, state)
      else if ¬ env.sdl_init_ok then (-1, state)
      else
        let want_freq := state.out_sample_rate
        let want_channels := state.out_channels
        let opened := SDL_OpenAudioDevice env want_freq want_channels 0
        let state := { state with audio_dev := opened.1 }
        if state.audio_dev = 0 then (-1, state)
        else
          let state := { state with out_sample_rate := opened.2.1,
                                    out_channels := opened.2.2 }
          let dst_nb_channels := out_ch_nb_channels
          let state := { state with max_dst_nb_samples := 0 }
          if ¬ env.samples_alloc_ok then (-1, state)
          else (0, { state with audio_dst_data := some ⟨dst_nb_channels, 1024⟩ })

/-- The function `init_player`: its return value and the state it leaves. -/
def init_player (state : PlayerState) (env : InitEnv) : Int × PlayerState :=
  if ¬ env.open_input_ok then (-1, state)
  else
    let state := { state with format_ctx := true }
    if ¬ env.stream_info_ok then (-1, state)
    else
      let idx := scan_streams env.streams 0 (-1, -1)
      let state := { state with video_stream_index := idx.1, audio_stream_index := idx.2 }
      if state.video_stream_index = -1 then (-1, state)
      else
        let video_codec_params := codecpar env state.video_stream_index
        if ¬ video_codec_params.decoder_found then (-1, state)
        else
          let state := { state with video_codec_ctx := some video_codec_params.to_context }
          if ¬ video_codec_params.open_ok then (-1, state)
          else
            let state := { state with audio_dev := 0, audio_dst_data := none,
                                      max_dst_nb_samples := 0, out_sample_rate := 44100,
                                      out_sample_fmt := AVSampleFormat.S16, out_channels := 2 }
            let r := if state.audio_stream_index ≠ -1 then init_player_audio state env
                     else (0, state)
            if r.1 ≠ 0 then r
            else (0, { r.2 with sws_ctx := true, quit := 0 })

/-! ## Audio queueing -/

def INT64_MIN : Int := -9223372036854775808

def INT64_MAX : Int := 9223372036854775807

/-- Modelled from the spec: `av_rescale_rnd(a, b, c, AV_ROUND_UP)` is libavutil code
that is not part of this repository; the spec gives the required output sample count as
`ceil((resampler_internal_delay + frame.sample_count) * output_rate / input_rate)`.
Following libavutil, a non-positive `c`, a negative `b` or a result outside `int64_t`
yields `INT64_MIN`. -/
def av_rescale_rnd_up (a b c : Int) : Int :=
  if c ≤ 0 ∨ b < 0 then INT64_MIN
  else
    let r := -((-(a * b)) / c)
    if INT64_MIN ≤ r ∧ r ≤ INT64_MAX then r else INT64_MIN

/-- What the libraries answer during one call of `queue_audio`: the delay
`swr_get_delay` reports, whether `av_samples_alloc` succeeds, the value `swr_convert`
returns and the value `SDL_QueueAudio` returns. -/
structure AudioReplies where
  delay : Int
  alloc_ok : Bool
  converted : Int
  queue_ret : Int
  deriving DecidableEq, Repr

/-- Library calls made by `queue_audio`: the reallocation of the sample buffer to
`nb_samples` samples, the conversion with its output sample count and the buffer it
writes to, the queueing of `(Uint32)data_size` bytes. -/
inductive AudioEvent where
  | samples_alloc (nb_channels nb_samples : Int)
  | swr_convert (out_count : Int) (dst : Option SampleBuffer)
  | SDL_QueueAudio (data_size : Int)
  deriving DecidableEq, Repr

/-- Input sample rate `state->audio_codec_ctx->sample_rate`. -/
def PlayerState.in_sample_rate (state : PlayerState) : Int :=
  match state.audio_codec_ctx with
  | some c => c.sample_rate
  | none => 0

/-- Lines 270-276 of `queue_audio`: the required output sample count
`dst_nb_samples`. -/
def dst_nb_samples (state : PlayerState) (inp : AVFrame) (rep : AudioReplies) : Int :=
  av_rescale_rnd_up (rep.delay + inp.nb_samples) state.out_sample_rate state.in_sample_rate

/-- Lines 280-291 of `queue_audio`: the growth of the mark and the reallocation of the
sample buffer for a required count `dst`, with the library calls made. -/
def grow_audio_buffer (state : PlayerState) (dst : Int) (alloc_ok : Bool) :
    PlayerState × List AudioEvent :=
  let dst_nb_channels := state.out_channels
  if dst > state.max_dst_nb_samples then
    let state := { state with max_dst_nb_samples := to_int dst }
    let state := { state with audio_dst_data := none }
    ({ state with audio_dst_data :=
          if alloc_ok then some ⟨dst_nb_channels, state.max_dst_nb_samples⟩ else none },
     [AudioEvent.samples_alloc dst_nb_channels state.max_dst_nb_samples])
  else (state, [])

/-- The function `queue_audio`: the state it leaves and the library calls it makes. -/
def queue_audio (state : PlayerState) (inp : AVFrame) (rep : AudioReplies) :
    PlayerState × List AudioEvent :=
  if state.audio_dev = 0 then (state, [])
  else
    let dst := dst_nb_samples state inp rep
    let dst_nb_channels := state.out_channels
    let grown := grow_audio_buffer state dst rep.alloc_ok
    let state := grown.1
    let convert := AudioEvent.swr_convert (to_int dst) state.audio_dst_data
    if rep.converted < 0 then (state, grown.2 ++ [convert])
    else
      let bytes_per_sample := av_get_bytes_per_sample state.out_sample_fmt
      let data_size := to_int (rep.converted * dst_nb_channels * bytes_per_sample)
      (state, grown.2 ++ [convert, AudioEvent.SDL_QueueAudio (data_size % 4294967296)])

/-- A sequence of `queue_audio` calls, each with its frame and library answers. -/
def queue_audio_seq (state : PlayerState) :
    List (AVFrame × AudioReplies) → PlayerState × List AudioEvent
  | [] => (state, [])
  | c :: rest =>
    let r := queue_audio state c.1 c.2
    let r2 := queue_audio_seq r.1 rest
    (r2.1, r.2 ++ r2.2)


/-- A container with one openable video stream and one openable audio stream of
`sample_rate` Hz, on a machine where every library call of `init_player` succeeds and
the audio hardware runs at `device_freq` Hz with `device_channels` channels. -/
def session_env (sample_rate device_freq device_channels : Int) : InitEnv :=
  { open_input_ok := true, stream_info_ok := true,
    streams := [⟨AVMediaType.VIDEO, true, true, 640, 480, 0, 0, AVSampleFormat.NONE⟩,
                ⟨AVMediaType.AUDIO, true, true, 0, 0, sample_rate, 2, AVSampleFormat.FLT⟩],
    swr_alloc_ok := true, swr_init_ok := true, sdl_init_ok := true, audio_dev := 2,
    device_freq := device_freq, device_channels := device_channels,
    samples_alloc_ok := true }

/-- A container whose video stream decodes and whose audio stream has a codec no
decoder is found for. -/
def unsupported_audio_env : InitEnv :=
  { open_input_ok := true, stream_info_ok := true,
    streams := [⟨AVMediaType.VIDEO, true, true, 640, 480, 0, 0, AVSampleFormat.NONE⟩,
                ⟨AVMediaType.AUDIO, false, false, 0, 0, 44100, 2, AVSampleFormat.FLT⟩],
    swr_alloc_ok := true, swr_init_ok := true, sdl_init_ok := true, audio_dev := 2,
    device_freq := 44100, device_channels := 2, samples_alloc_ok := true }

/-- An audio frame of `n` samples. -/
def audio_frame (n : Int) : AVFrame := { data := fun _ => 0, linesize := 0, nb_samples := n }

/-! ## The playback loop of `main` -/

/-- A packet read from the container: its `stream_index`; `id` identifies its payload. -/
structure AVPacket where
  stream_index : Int
  id : Nat
  deriving DecidableEq, Repr

/-- A decoder of libavcodec, as far as the loop observes it: `avcodec_send_packet`
(the packet `none` is the flush marker `NULL`) returns a code and
`avcodec_receive_frame` returns a code and the frame it stored; both advance the
decoder's internal state `δ`. -/
structure Decoder (δ : Type) where
  send_packet : δ → Option AVPacket → Int × δ
  receive_frame : δ → Int × AVFrame × δ

/-- Everything outside the program during playback: the keys `getch` returns, poll by
poll; the packets `av_read_frame` returns, call by call (`none` when it reports the end
of the stream); the two decoders; the conversion `sws_scale` to RGB; the viewport
`(console_height, console_width)` each `getmaxyx` reports; the pacing delay
`(useconds_t)(1000000.0 / fps)` of the stream; the library answers of each
`queue_audio` call; the byte counts `SDL_GetQueuedAudioSize` reports. -/
structure World (δv δa : Type) where
  getch : Nat → Int
  av_read_frame : Nat → Option AVPacket
  video : Decoder δv
  audio : Decoder δa
  sws_scale : AVFrame → AVFrame
  getmaxyx : Nat → Int × Int
  frame_delay : Nat
  audio_replies : Nat → AudioReplies
  queued_audio_size : Nat → Nat

/-- Calls the loop makes on the outside, in the order made. -/
inductive Event where
  | getch (key : Int)
  | av_read_frame (pkt : Option AVPacket)
  | send_video (pkt : Option AVPacket) (ret : Int)
  | send_audio (pkt : Option AVPacket) (ret : Int)
  | screen (op : ScreenOp)
  | usleep (usec : Nat)
  | audio (e : AudioEvent)
  | queued_audio_size (bytes : Nat)
  deriving DecidableEq, Repr

/-- The program state during playback: `state`, the internal state of both decoders,
how many answers of each kind were consumed, and the calls made so far. -/
structure Session (δv δa : Type) where
  state : PlayerState
  vdec : δv
  adec : δa
  n_getch : Nat
  n_read : Nat
  n_view : Nat
  n_audio : Nat
  n_queued : Nat
  trace : List Event

variable {δv δa : Type}

/-- Width of the video: `state.video_codec_ctx->width`. -/
def PlayerState.width (state : PlayerState) : Int :=
  match state.video_codec_ctx with
  | some c => c.width
  | none => 0

/-- Height of the video: `state.video_codec_ctx->height`. -/
def PlayerState.height (state : PlayerState) : Int :=
  match state.video_codec_ctx with
  | some c => c.height
  | none => 0

/-- The surface calls and the sleep of one rendered frame: `sws_scale`,
`frame_to_ascii` on the viewport reported at the `k`-th query, `usleep(usec)`. -/
def render_events (w : World δv δa) (state : PlayerState) (k : Nat) (frame : AVFrame)
    (usec : Nat) : List Event :=
  (frame_to_ascii (w.sws_scale frame) state.width state.height
      (w.getmaxyx k).2 (w.getmaxyx k).1).map Event.screen
  ++ [Event.usleep usec]

/-- Body of both video loops (lines 346-363 and 382-392) for a received frame. -/
def render (w : World δv δa) (ses : Session δv δa) (frame : AVFrame) (usec : Nat) :
    Session δv δa :=
  { ses with n_view := ses.n_view + 1,
             trace := ses.trace ++ render_events w ses.state ses.n_view frame usec }

/-- The loop `while (avcodec_receive_frame(state.video_codec_ctx, state.frame) == 0)`
of lines 345 and 381, each frame paced by `usec`; `none` when `fuel` iterations do not
finish it. -/
def video_receive_loop (w : World δv δa) (usec : Nat) :
    Nat → Session δv δa → Option (Session δv δa)
  | 0, _ => none
  | fuel + 1, ses =>
    let r := w.video.receive_frame ses.vdec
    let ses := { ses with vdec := r.2.2 }
    if r.1 = 0 then video_receive_loop w usec fuel (render w ses r.2.1 usec)
    else some ses

/-- The call `queue_audio(&state, state.frame)` inside the loop. -/
def session_queue_audio (w : World δv δa) (ses : Session δv δa) (frame : AVFrame) :
    Session δv δa :=
  let r := queue_audio ses.state frame (w.audio_replies ses.n_audio)
  { ses with state := r.1, n_audio := ses.n_audio + 1,
             trace := ses.trace ++ r.2.map Event.audio }

/-- The loop of lines 368-373: it stops on any negative code of
`avcodec_receive_frame`. -/
def audio_receive_loop (w : World δv δa) : Nat → Session δv δa → Option (Session δv δa)
  | 0, _ => none
  | fuel + 1, ses =>
    let r := w.audio.receive_frame ses.adec
    let ses := { ses with adec := r.2.2 }
    if r.1 < 0 then some ses
    else audio_receive_loop w fuel (session_queue_audio w ses r.2.1)

/-- The loop of lines 397-399: it runs while `avcodec_receive_frame` returns 0. -/
def audio_flush_loop (w : World δv δa) : Nat → Session δv δa → Option (Session δv δa)
  | 0, _ => none
  | fuel + 1, ses =>
    let r := w.audio.receive_frame ses.adec
    let ses := { ses with adec := r.2.2 }
    if r.1 = 0 then audio_flush_loop w fuel (session_queue_audio w ses r.2.1)
    else some ses

/-- The loop of lines 403-407 that waits for the queued audio to play. -/
def audio_wait_loop (w : World δv δa) : Nat → Session δv δa → Option (Session δv δa)
  | 0, _ => none
  | fuel + 1, ses =>
    let bytes := w.queued_audio_size ses.n_queued
    let ses := { ses with n_queued := ses.n_queued + 1,
                          trace := ses.trace ++ [Event.queued_audio_size bytes] }
    if bytes > 0 ∧ ses.state.quit = 0 then
      let ch2 := w.getch ses.n_getch
      let ses := { ses with n_getch := ses.n_getch + 1,
                            trace := ses.trace ++ [Event.getch ch2] }
      if ch2 = 113 ∨ ch2 = 81 then some { ses with state := { ses.state with quit := 1 } }
      else audio_wait_loop w fuel { ses with trace := ses.trace ++ [Event.usleep 20000] }
    else some ses

/-- Lines 395-408: the flush of the audio decoder and the wait for the audio sink,
after the video decoder was flushed. -/
def flush_audio (w : World δv δa) (fuel : Nat) (ses : Session δv δa) :
    Option (Session δv δa) :=
  let flushed : Option (Session δv δa) :=
    if ses.state.audio_codec_ctx.isSome then
      let r := w.audio.send_packet ses.adec none
      let ses := { ses with adec := r.2, trace := ses.trace ++ [Event.send_audio none r.1] }
      if r.1 = 0 then audio_flush_loop w fuel ses else some ses
    else some ses
  flushed.bind fun ses =>
    if ses.state.audio_dev ≠ 0 then audio_wait_loop w fuel ses else some ses

/-- Lines 380-394: the flush of the video decoder at the end of the stream. -/
def flush_video (w : World δv δa) (fuel : Nat) (ses : Session δv δa) :
    Option (Session δv δa) :=
  let r := w.video.send_packet ses.vdec none
  let ses := { ses with vdec := r.2, trace := ses.trace ++ [Event.send_video none r.1] }
  if r.1 = 0 then video_receive_loop w 33000 fuel ses else some ses

/-- Lines 343-377: the routing of a packet that was read. -/
def route_packet (w : World δv δa) (fuel : Nat) (ses : Session δv δa) (pkt : AVPacket) :
    Option (Session δv δa) :=
  if pkt.stream_index = ses.state.video_stream_index then
    let r := w.video.send_packet ses.vdec (some pkt)
    let ses := { ses with vdec := r.2, trace := ses.trace ++ [Event.send_video (some pkt) r.1] }
    if r.1 = 0 then video_receive_loop w w.frame_delay fuel ses else some ses
  else if pkt.stream_index = ses.state.audio_stream_index ∧ ses.state.audio_codec_ctx.isSome then
    let r := w.audio.send_packet ses.adec (some pkt)
    let ses := { ses with adec := r.2, trace := ses.trace ++ [Event.send_audio (some pkt) r.1] }
    if r.1 = 0 then audio_receive_loop w fuel ses else some ses
  else some ses

/-- The loop `while (!state.quit)` of `main` (lines 335-411): the session when the loop
is left, `none` when `fuel` iterations of some loop do not finish it. The key codes 113
and 81 are the characters `q` and `Q`. -/
def main_loop (w : World δv δa) : Nat → Session δv δa → Option (Session δv δa)
  | 0, _ => none
  | fuel + 1, ses =>
    if ses.state.quit ≠ 0 then some ses
    else
      let ch := w.getch ses.n_getch
      let ses := { ses with n_getch := ses.n_getch + 1, trace := ses.trace ++ [Event.getch ch] }
      if ch = 113 ∨ ch = 81 then some { ses with state := { ses.state with quit := 1 } }
      else
        let pkt := w.av_read_frame ses.n_read
        let ses := { ses with n_read := ses.n_read + 1,
                              trace := ses.trace ++ [Event.av_read_frame pkt] }
        match pkt with
        | some p => (route_packet w fuel ses p).bind (main_loop w fuel)
        | none => (flush_video w fuel ses).bind (flush_audio w fuel)

/-- The decoder, from internal state `d`, returns exactly the frames `frames` (code 0
each time) and then a non-zero code, which leaves it in state `d2`. -/
def Decoder.Holds {δ : Type} (dec : Decoder δ) : δ → List AVFrame → δ → Prop
  | d, [], d2 => (dec.receive_frame d).1 ≠ 0 ∧ (dec.receive_frame d).2.2 = d2
  | d, f :: rest, d2 =>
    (dec.receive_frame d).1 = 0 ∧ (dec.receive_frame d).2.1 = f ∧
      dec.Holds (dec.receive_frame d).2.2 rest d2

/-- A decoder that holds back frames: its internal state is the list of frames it has
buffered; it accepts every packet, returns the buffered frames one by one and then
`AVERROR_EOF`. -/
def holding_decoder : Decoder (List AVFrame) :=
  { send_packet := fun d _ => (0, d),
    receive_frame := fun d =>
      match d with
      | [] => (-541478725, audio_frame 0, [])
      | f :: rest => (0, f, rest) }

/-- A world with no key pressed unless `key` says so, an exhausted container, a
24 x 80 viewport and an audio sink reporting `queued` bytes. -/
def demo_world (key : Int) (queued : Nat) : World (List AVFrame) (List AVFrame) :=
  { getch := fun _ => key,
    av_read_frame := fun _ => none,
    video := holding_decoder,
    audio := holding_decoder,
    sws_scale := fun f => f,
    getmaxyx := fun _ => (24, 80),
    frame_delay := 40000,
    audio_replies := fun _ => ⟨0, true, 0, 0⟩,
    queued_audio_size := fun _ => queued }

/-- A session about to start the loop, the video decoder holding `held`. -/
def demo_session (state : PlayerState) (held : List AVFrame) :
    Session (List AVFrame) (List AVFrame) :=
  { state := state, vdec := held, adec := [], n_getch := 0, n_read := 0, n_view := 0,
    n_audio := 0, n_queued := 0, trace := [] }

/-! ## Properties of the single-precision model -/

theorem roundTiesEven_err (y : ℚ) : |(roundTiesEven y : ℚ) - y| ≤ 1 / 2 := by
  have h0 : (0 : ℚ) ≤ y - ⌊y⌋ := by linarith [Int.floor_le y]
  have h1 : y - ⌊y⌋ < 1 := by linarith [Int.lt_floor_add_one y]
  unfold roundTiesEven
  simp only []
  split_ifs with ha hb hc
  · rw [abs_le]; constructor <;> linarith
  · push_cast; rw [abs_le]; constructor <;> linarith
  · rw [abs_le]; constructor <;> linarith
  · push_cast; rw [abs_le]; constructor <;> linarith

theorem roundTiesEven_nonneg {y : ℚ} (hy : 0 ≤ y) : 0 ≤ roundTiesEven y := by
  have hf : 0 ≤ ⌊y⌋ := Int.floor_nonneg.mpr hy
  unfold roundTiesEven
  simp only []
  split_ifs <;> omega

theorem f32_round_nonneg {q : ℚ} (hq : 0 ≤ q) : 0 ≤ f32_round q := by
  unfold f32_round
  split_ifs with h
  · exact le_refl _
  · simp only []
    have hp : (0 : ℚ) < 2 ^ (max (Int.log 2 |q| - 23) (-149)) := by positivity
    have : 0 ≤ roundTiesEven (q / 2 ^ (max (Int.log 2 |q| - 23) (-149))) :=
      roundTiesEven_nonneg (div_nonneg hq hp.le)
    have : (0 : ℚ) ≤ (roundTiesEven (q / 2 ^ (max (Int.log 2 |q| - 23) (-149))) : ℚ) := by
      exact_mod_cast this
    positivity

/-- In the normal range the rounding error is at most half a unit in the last place:
a relative error of `2^-24`. -/
theorem f32_round_err {q : ℚ} (hq : (2 : ℚ) ^ (-126 : ℤ) ≤ q) :
    |f32_round q - q| ≤ q / 2 ^ 24 := by
  have hpos : 0 < q := lt_of_lt_of_le (by positivity) hq
  have habs : |q| = q := abs_of_pos hpos
  have hlog : (-126 : ℤ) ≤ Int.log 2 q := by
    have := (Int.zpow_le_iff_le_log (R := ℚ) (b := 2) (by norm_num) (x := -126) hpos).mp
    exact this (by exact_mod_cast hq)
  have hlow : ((2 : ℕ) : ℚ) ^ (Int.log 2 q) ≤ q := Int.zpow_log_le_self (by norm_num) hpos
  unfold f32_round
  rw [if_neg hpos.ne']
  simp only [habs]
  have hmax : max (Int.log 2 q - 23) (-149) = Int.log 2 q - 23 := max_eq_left (by omega)
  rw [hmax]
  set e : ℤ := Int.log 2 q - 23 with he
  have hp : (0 : ℚ) < 2 ^ e := by positivity
  have hre := roundTiesEven_err (q / 2 ^ e)
  have hsplit : (2 : ℚ) ^ (Int.log 2 q) = 2 ^ e * 2 ^ (23 : ℕ) := by
    have : Int.log 2 q = e + 23 := by omega
    rw [this, zpow_add₀ (by norm_num : (2 : ℚ) ≠ 0)]
    norm_cast
  have hlow' : (2 : ℚ) ^ e * 2 ^ (23 : ℕ) ≤ q := by
    rw [← hsplit]; exact_mod_cast hlow
  have key : (roundTiesEven (q / 2 ^ e) : ℚ) * 2 ^ e - q
      = ((roundTiesEven (q / 2 ^ e) : ℚ) - q / 2 ^ e) * 2 ^ e := by
    field_simp
  rw [key, abs_mul, abs_of_pos hp]
  calc |(roundTiesEven (q / 2 ^ e) : ℚ) - q / 2 ^ e| * 2 ^ e
      ≤ 1 / 2 * 2 ^ e := by gcongr
    _ ≤ q / 2 ^ 24 := by
      rw [le_div_iff₀ (by positivity)]
      nlinarith

theorem f32_round_le {q : ℚ} (hq : (2 : ℚ) ^ (-126 : ℤ) ≤ q) :
    f32_round q ≤ q * (16777217 / 16777216) := by
  have h := f32_round_err hq
  rw [abs_le] at h
  have : q / 2 ^ 24 = q * (1 / 16777216) := by
    rw [div_eq_mul_inv]; norm_num
  linarith [h.2]

theorem f32_round_ge {q : ℚ} (hq : (2 : ℚ) ^ (-126 : ℤ) ≤ q) :
    q * (16777215 / 16777216) ≤ f32_round q := by
  have h := f32_round_err hq
  rw [abs_le] at h
  have : q / 2 ^ 24 = q * (1 / 16777216) := by
    rw [div_eq_mul_inv]; norm_num
  linarith [h.1]

theorem f32_round_zero : f32_round 0 = 0 := by
  unfold f32_round; simp

theorem f32_to_int_of_lt {p : ℚ} (h0 : 0 ≤ p) (h1 : p < 2147483648) :
    f32_to_int p = ⌊p⌋ ∧ 0 ≤ ⌊p⌋ := by
  have hf : 0 ≤ ⌊p⌋ := Int.floor_nonneg.mpr h0
  have hlt : ⌊p⌋ < 2147483648 := by
    have : ((⌊p⌋ : ℤ) : ℚ) < 2147483648 := lt_of_le_of_lt (Int.floor_le p) h1
    exact_mod_cast this
  unfold f32_to_int INT_MIN INT_MAX
  simp only [if_pos h0]
  refine ⟨?_, hf⟩
  rw [if_pos]
  constructor <;> omega

/-- The product `x * scale` formed for one axis is non-negative and below `2^31`, so
its conversion to `int` is defined, for every frame dimension that is an `int` and
every viewport dimension up to `2^20`: the four roundings lose less than the factor
`1 - 1 / console` gained from `pos < console`. -/
theorem axis_product_bounds {dim console pos : Int}
    (hd1 : 1 ≤ dim) (hd2 : dim ≤ 2147483647)
    (hc1 : 1 ≤ console) (hc2 : console ≤ 1048576)
    (hp1 : 0 ≤ pos) (hp2 : pos < console) :
    0 ≤ f32_mul (f32_of_int pos) (f32_div (f32_of_int dim) (f32_of_int console)) ∧
    f32_mul (f32_of_int pos) (f32_div (f32_of_int dim) (f32_of_int console))
      < 2147483648 := by
  have hdq1 : (1 : ℚ) ≤ (dim : ℚ) := by exact_mod_cast hd1
  have hdq2 : (dim : ℚ) ≤ 2147483647 := by exact_mod_cast hd2
  have hcq1 : (1 : ℚ) ≤ (console : ℚ) := by exact_mod_cast hc1
  have hcq2 : (console : ℚ) ≤ 1048576 := by exact_mod_cast hc2
  have hpq1 : (0 : ℚ) ≤ (pos : ℚ) := by exact_mod_cast hp1
  have hpq2 : (pos : ℚ) + 1 ≤ (console : ℚ) := by exact_mod_cast (show pos + 1 ≤ console by omega)
  have hsmall : (2 : ℚ) ^ (-126 : ℤ) ≤ 1 / 2 ^ 40 := by
    rw [zpow_neg, ← one_div]
    apply one_div_le_one_div_of_le (by positivity)
    norm_num
  have hW1 := f32_round_le (q := (dim : ℚ)) (le_trans hsmall (by norm_num; linarith))
  have hW2 := f32_round_ge (q := (dim : ℚ)) (le_trans hsmall (by norm_num; linarith))
  have hC1 := f32_round_le (q := (console : ℚ)) (le_trans hsmall (by norm_num; linarith))
  have hC2 := f32_round_ge (q := (console : ℚ)) (le_trans hsmall (by norm_num; linarith))
  unfold f32_mul f32_div f32_of_int
  set W := f32_round (dim : ℚ) with hW
  set C := f32_round (console : ℚ) with hC
  have hWpos : 0 < W := by linarith
  have hCpos : 0 < C := by linarith
  have hq_le : W / C ≤ (dim * (16777217 / 16777216)) / (console * (16777215 / 16777216)) :=
    div_le_div₀ (by positivity) hW1 (by positivity) hC2
  have hq_ge : (dim * (16777215 / 16777216)) / (console * (16777217 / 16777216)) ≤ W / C :=
    div_le_div₀ hWpos.le hW2 hCpos hC1
  have hq_lo : (1 : ℚ) / 2 ^ 33 ≤
      (dim * (16777215 / 16777216)) / (console * (16777217 / 16777216)) := by
    rw [div_le_div_iff₀ (by positivity) (by positivity)]
    nlinarith
  have hWC_lo : (1 : ℚ) / 2 ^ 33 ≤ W / C := le_trans hq_lo hq_ge
  have hWC_small : (2 : ℚ) ^ (-126 : ℤ) ≤ W / C :=
    le_trans hsmall (le_trans (by norm_num) hWC_lo)
  have hS1 := f32_round_le hWC_small
  have hS2 := f32_round_ge hWC_small
  set S := f32_round (W / C) with hS
  have hSpos : 0 < S := by
    have : 0 < W / C := div_pos hWpos hCpos
    linarith
  have hX0 : 0 ≤ f32_round (pos : ℚ) := f32_round_nonneg hpq1
  refine ⟨f32_round_nonneg (mul_nonneg hX0 hSpos.le), ?_⟩
  rcases eq_or_lt_of_le hp1 with h0 | hpos
  · rw [← h0]; simp [f32_round_zero]
  · have hpq3 : (1 : ℚ) ≤ (pos : ℚ) := by exact_mod_cast (show (1 : ℤ) ≤ pos by omega)
    have hX1 := f32_round_le (q := (pos : ℚ)) (le_trans hsmall (by norm_num; linarith))
    have hX2 := f32_round_ge (q := (pos : ℚ)) (le_trans hsmall (by norm_num; linarith))
    set X := f32_round (pos : ℚ) with hX
    have hS_lo : (1 : ℚ) / 2 ^ 34 ≤ S := by linarith
    have hXS_lo : (2 : ℚ) ^ (-126 : ℤ) ≤ X * S := by
      have h1 : (1 / 2 : ℚ) ≤ X := by linarith
      have : (1 / 2 : ℚ) * (1 / 2 ^ 34) ≤ X * S :=
        mul_le_mul h1 hS_lo (by positivity) (by linarith)
      have h2 : (1 : ℚ) / 2 ^ 40 ≤ 1 / 2 * (1 / 2 ^ 34) := by norm_num
      exact le_trans hsmall (le_trans h2 this)
    have hP := f32_round_le hXS_lo
    have hS_hi : S ≤ (dim * (16777217 / 16777216)) / (console * (16777215 / 16777216))
        * (16777217 / 16777216) := by
      have := mul_le_mul_of_nonneg_right hq_le
        (by norm_num : (0 : ℚ) ≤ 16777217 / 16777216)
      linarith
    have hXS_hi : X * S ≤ (pos * (16777217 / 16777216)) *
        ((dim * (16777217 / 16777216)) / (console * (16777215 / 16777216))
          * (16777217 / 16777216)) :=
      mul_le_mul hX1 hS_hi hSpos.le (by positivity)
    have hform : (pos * (16777217 / 16777216)) *
        ((dim * (16777217 / 16777216)) / (console * (16777215 / 16777216))
          * (16777217 / 16777216)) * (16777217 / 16777216)
        = dim * ((16777217 / 16777216) ^ 4 / (16777215 / 16777216) * ((pos : ℚ) / console)) := by
      field_simp; ring
    have hfrac : (pos : ℚ) / console ≤ 1048575 / 1048576 := by
      rw [div_le_iff₀ (by linarith)]; linarith
    have hfactor : (16777217 / 16777216 : ℚ) ^ 4 / (16777215 / 16777216) * ((pos : ℚ) / console)
        ≤ 1 := by
      have h1 : (16777217 / 16777216 : ℚ) ^ 4 / (16777215 / 16777216) * ((pos : ℚ) / console)
          ≤ (16777217 / 16777216 : ℚ) ^ 4 / (16777215 / 16777216) * (1048575 / 1048576) :=
        mul_le_mul_of_nonneg_left hfrac (by positivity)
      have h2 : (16777217 / 16777216 : ℚ) ^ 4 / (16777215 / 16777216) * (1048575 / 1048576)
          ≤ 1 := by norm_num
      exact le_trans h1 h2
    have hfin : X * S * (16777217 / 16777216) ≤ (dim : ℚ) := by
      have h1 : X * S * (16777217 / 16777216) ≤
          dim * ((16777217 / 16777216) ^ 4 / (16777215 / 16777216) * ((pos : ℚ) / console)) := by
        rw [← hform]
        exact mul_le_mul_of_nonneg_right hXS_hi (by norm_num)
      have h2 : (dim : ℚ) *
          ((16777217 / 16777216) ^ 4 / (16777215 / 16777216) * ((pos : ℚ) / console))
          ≤ dim * 1 := mul_le_mul_of_nonneg_left hfactor (by linarith)
      linarith
    linarith

theorem clamp_bounds {v dim : Int} (hv : 0 ≤ v) (hd : 1 ≤ dim) :
    0 ≤ (if v ≥ dim then dim - 1 else v) ∧ (if v ≥ dim then dim - 1 else v) ≤ dim - 1 := by
  split_ifs <;> constructor <;> omega

/-! ## Claims about the renderer -/

/-- C1: for every frame width `>= 1` and height `>= 1` (both `int`s), every viewport of
`console_width >= 1` columns and `console_height >= 1` rows and every cell `(x, y)`
with `0 <= x < console_width` and `0 <= y < console_height`, the coordinates
`frame_to_ascii` samples satisfy `0 <= frame_x <= width - 1` and
`0 <= frame_y <= height - 1`. The viewport is one `getmaxyx` can report: a curses
window is at most 32768 cells wide and high; the bound used is `2^20`. -/
theorem sample_coords_in_frame (width height console_width console_height x y : Int)
    (hw : 1 ≤ width) (hw2 : width ≤ INT_MAX)
    (hh : 1 ≤ height) (hh2 : height ≤ INT_MAX)
    (hcw : 1 ≤ console_width) (hcw2 : console_width ≤ 1048576)
    (hch : 1 ≤ console_height) (hch2 : console_height ≤ 1048576)
    (hx : 0 ≤ x) (hx2 : x < console_width) (hy : 0 ≤ y) (hy2 : y < console_height) :
    0 ≤ (sample_coords width height
          (scales width height console_width console_height).1
          (scales width height console_width console_height).2 x y).1 ∧
    (sample_coords width height
          (scales width height console_width console_height).1
          (scales width height console_width console_height).2 x y).1 ≤ width - 1 ∧
    0 ≤ (sample_coords width height
          (scales width height console_width console_height).1
          (scales width height console_width console_height).2 x y).2 ∧
    (sample_coords width height
          (scales width height console_width console_height).1
          (scales width height console_width console_height).2 x y).2 ≤ height - 1 := by
  have hX := axis_product_bounds hw hw2 hcw hcw2 hx hx2
  have hY := axis_product_bounds hh hh2 hch hch2 hy hy2
  have hX' := f32_to_int_of_lt hX.1 hX.2
  have hY' := f32_to_int_of_lt hY.1 hY.2
  have cx := @clamp_bounds (f32_to_int (f32_mul (f32_of_int x)
    (f32_div (f32_of_int width) (f32_of_int console_width)))) width
    (by rw [hX'.1]; exact hX'.2) hw
  have cy := @clamp_bounds (f32_to_int (f32_mul (f32_of_int y)
    (f32_div (f32_of_int height) (f32_of_int console_height)))) height
    (by rw [hY'.1]; exact hY'.2) hh
  simp only [sample_coords, scales]
  exact ⟨cx.1, cx.2, cy.1, cy.2⟩

theorem sample_coords_in_frame_witness :
    0 ≤ (sample_coords 4 3 (scales 4 3 6 2).1 (scales 4 3 6 2).2 5 1).1 ∧
    (sample_coords 4 3 (scales 4 3 6 2).1 (scales 4 3 6 2).2 5 1).1 ≤ 4 - 1 ∧
    0 ≤ (sample_coords 4 3 (scales 4 3 6 2).1 (scales 4 3 6 2).2 5 1).2 ∧
    (sample_coords 4 3 (scales 4 3 6 2).1 (scales 4 3 6 2).2 5 1).2 ≤ 3 - 1 :=
  sample_coords_in_frame 4 3 6 2 5 1 (by decide) (by decide) (by decide) (by decide)
    (by decide) (by decide) (by decide) (by decide) (by decide) (by decide) (by decide)
    (by decide)

theorem tdiv3_mono {a b : Int} (h : a ≤ b) : Int.tdiv a 3 ≤ Int.tdiv b 3 := by
  rcases le_or_lt 0 a with ha | ha
  · rw [Int.tdiv_eq_ediv ha (by decide), Int.tdiv_eq_ediv (le_trans ha h) (by decide)]
    omega
  · have ea : Int.tdiv a 3 = -((-a) / 3) := by
      rw [← Int.tdiv_eq_ediv (by omega) (by decide), Int.neg_tdiv, neg_neg]
    rcases le_or_lt 0 b with hb | hb
    · rw [ea, Int.tdiv_eq_ediv hb (by decide)]; omega
    · have eb : Int.tdiv b 3 = -((-b) / 3) := by
        rw [← Int.tdiv_eq_ediv (by omega) (by decide), Int.neg_tdiv, neg_neg]
      rw [ea, eb]; omega

theorem tdiv255_mono {a b : Int} (h : a ≤ b) : Int.tdiv a 255 ≤ Int.tdiv b 255 := by
  rcases le_or_lt 0 a with ha | ha
  · rw [Int.tdiv_eq_ediv ha (by decide), Int.tdiv_eq_ediv (le_trans ha h) (by decide)]
    omega
  · have ea : Int.tdiv a 255 = -((-a) / 255) := by
      rw [← Int.tdiv_eq_ediv (by omega) (by decide), Int.neg_tdiv, neg_neg]
    rcases le_or_lt 0 b with hb | hb
    · rw [ea, Int.tdiv_eq_ediv hb (by decide)]; omega
    · have eb : Int.tdiv b 255 = -((-b) / 255) := by
        rw [← Int.tdiv_eq_ediv (by omega) (by decide), Int.neg_tdiv, neg_neg]
      rw [ea, eb]; omega

theorem strlen_ASCII_CHARS : strlen ASCII_CHARS = 10 := by decide

theorem byte_range (frame : AVFrame) (idx : Int) :
    0 ≤ frame.byte idx ∧ frame.byte idx ≤ 255 := by
  unfold AVFrame.byte
  constructor
  · exact Int.ofNat_nonneg _
  · have : frame.data idx % 256 < 256 := Nat.mod_lt _ (by decide)
    omega

theorem pixel_char_idx_range (frame : AVFrame) (frame_x frame_y : Int) :
    0 ≤ pixel_char_idx frame frame_x frame_y ∧
    pixel_char_idx frame frame_x frame_y < strlen ASCII_CHARS := by
  rw [strlen_ASCII_CHARS]
  simp only [pixel_char_idx, char_idx, brightness, strlen_ASCII_CHARS]
  generalize to_int (frame_y * frame.linesize + frame_x * 3) = idx
  have hr := byte_range frame idx
  have hg := byte_range frame (to_int (idx + 1))
  have hb := byte_range frame (to_int (idx + 2))
  generalize frame.byte idx = r at hr ⊢
  generalize frame.byte (to_int (idx + 1)) = g at hg ⊢
  generalize frame.byte (to_int (idx + 2)) = b at hb ⊢
  have h1 : Int.tdiv (r + g + b) 3 = (r + g + b) / 3 :=
    Int.tdiv_eq_ediv (by omega) (by decide)
  rw [h1]
  rw [Int.tdiv_eq_ediv (by omega) (by decide)]
  omega

/-- C3: the brightness-to-glyph mapping is monotonic non-decreasing: for two pixels whose
brightness `(r + g + b) / 3` satisfies `brightness1 <= brightness2`, the ramp indices
`brightness * (N - 1) / 255` satisfy `index1 <= index2`. -/
theorem char_idx_monotone (r1 g1 b1 r2 g2 b2 : Int)
    (h : brightness r1 g1 b1 ≤ brightness r2 g2 b2) :
    char_idx (brightness r1 g1 b1) ≤ char_idx (brightness r2 g2 b2) := by
  unfold char_idx
  rw [strlen_ASCII_CHARS]
  apply tdiv255_mono
  omega

theorem char_idx_monotone_witness :
    brightness 10 20 30 ≤ brightness 200 100 250 ∧
    char_idx (brightness 10 20 30) ≤ char_idx (brightness 200 100 250) :=
  ⟨by decide, char_idx_monotone 10 20 30 200 100 250 (by decide)⟩

theorem countP_eq_one_of_mem {α : Type} [DecidableEq α] {l : List α} {a : α}
    (hn : l.Nodup) (hm : a ∈ l) : l.countP (fun b => decide (b = a)) = 1 := by
  have h := List.count_eq_one_of_mem hn hm
  rw [← h, List.count]
  congr 1

theorem cells_positions (frame : AVFrame) (width height : Int) (sx sy : ℚ) (H W : Nat) :
    (((List.range H).flatMap fun (y : Nat) => (List.range W).map fun (x : Nat) =>
        ascii_cell frame width height sx sy (y : Int) (x : Int)).map ScreenOp.cell)
      = (List.product (List.range H) (List.range W)).map
          (fun p => some ((p.1 : Int), (p.2 : Int))) := by
  simp only [List.product, List.map_flatMap, List.map_map]
  rfl

theorem cells_length (f : Nat → Nat → ScreenOp) (H W : Nat) :
    ((List.range H).flatMap fun (y : Nat) => (List.range W).map fun (x : Nat) => f y x).length
      = H * W := by
  induction H with
  | zero => simp
  | succ n ih => simp [List.range_succ, ih, Nat.succ_mul]

theorem frame_to_ascii_shape (frame : AVFrame) (width height cw ch : Int) :
    ∃ cells : List ScreenOp,
      frame_to_ascii frame width height cw ch = cells ++ [ScreenOp.refresh] ∧
      cells.length = ch.toNat * cw.toNat ∧ ScreenOp.refresh ∉ cells := by
  refine ⟨(List.range ch.toNat).flatMap fun (y : Nat) => (List.range cw.toNat).map
      fun (x : Nat) => ascii_cell frame width height (scales width height cw ch).1
        (scales width height cw ch).2 (y : Int) (x : Int), rfl, ?_, ?_⟩
  · exact cells_length (fun y x => ascii_cell frame width height
      (scales width height cw ch).1 (scales width height cw ch).2 (y : Int) (x : Int)) _ _
  · intro h
    rw [List.mem_flatMap] at h
    obtain ⟨y, _, h⟩ := h
    rw [List.mem_map] at h
    obtain ⟨x, _, h⟩ := h
    simp [ascii_cell] at h

/-- C2: on a viewport of `W >= 1` columns and `H >= 1` rows `frame_to_ascii` writes
exactly `W * H` glyphs, exactly one at each cell `(x, y)` with `0 <= x < W` and
`0 <= y < H`; each glyph is `ASCII_CHARS[char_idx]` with `0 <= char_idx < N`, `N = 10`
the length of the ramp; the surface is flushed once, after the whole grid. -/
theorem frame_to_ascii_grid (frame : AVFrame) (width height W H : Int)
    (hW : 1 ≤ W) (hH : 1 ≤ H) :
    ∃ cells : List ScreenOp,
      frame_to_ascii frame width height W H = cells ++ [ScreenOp.refresh] ∧
      (cells.length : Int) = W * H ∧
      (∀ x y : Int, 0 ≤ x → x < W → 0 ≤ y → y < H →
        cells.countP (fun op => decide (op.cell = some (y, x))) = 1) ∧
      strlen ASCII_CHARS = 10 ∧
      (∀ op ∈ cells, ∃ y x i : Int, 0 ≤ x ∧ x < W ∧ 0 ≤ y ∧ y < H ∧
        i = pixel_char_idx frame
          (sample_coords width height (scales width height W H).1
            (scales width height W H).2 x y).1
          (sample_coords width height (scales width height W H).1
            (scales width height W H).2 x y).2 ∧
        0 ≤ i ∧ i < strlen ASCII_CHARS ∧
        op = ScreenOp.mvaddch y x (ASCII_CHARS.getD i.toNat (Char.ofNat 0))) := by
  refine ⟨(List.range H.toNat).flatMap fun (y : Nat) => (List.range W.toNat).map fun (x : Nat) =>
      ascii_cell frame width height (scales width height W H).1
        (scales width height W H).2 (y : Int) (x : Int), rfl, ?_, ?_, strlen_ASCII_CHARS, ?_⟩
  · rw [cells_length]
    push_cast
    rw [Int.toNat_of_nonneg (by omega), Int.toNat_of_nonneg (by omega)]
    ring
  · intro x y hx0 hx1 hy0 hy1
    have hmap := List.countP_map (fun c => decide (c = some (y, x))) ScreenOp.cell
      ((List.range H.toNat).flatMap fun (y : Nat) => (List.range W.toNat).map fun (x : Nat) =>
        ascii_cell frame width height (scales width height W H).1
          (scales width height W H).2 (y : Int) (x : Int))
    rw [cells_positions] at hmap
    refine Eq.trans ?_ (Eq.trans hmap.symm ?_)
    · rfl
    apply countP_eq_one_of_mem
    · apply List.Nodup.map
      · intro p q hpq
        simp only [Option.some.injEq, Prod.mk.injEq] at hpq
        ext
        · exact_mod_cast hpq.1
        · exact_mod_cast hpq.2
      · exact List.Nodup.product (List.nodup_range _) (List.nodup_range _)
    · rw [List.mem_map]
      refine ⟨(y.toNat, x.toNat), ?_, ?_⟩
      · have hp := @List.mem_product _ _ (List.range H.toNat) (List.range W.toNat)
          y.toNat x.toNat
        apply hp.mpr
        rw [List.mem_range, List.mem_range]
        constructor <;> omega
      · simp only [Int.toNat_of_nonneg hx0, Int.toNat_of_nonneg hy0]
  · intro op hop
    rw [List.mem_flatMap] at hop
    obtain ⟨y, hy, hop⟩ := hop
    rw [List.mem_map] at hop
    obtain ⟨x, hx, rfl⟩ := hop
    rw [List.mem_range] at hx hy
    have hr := pixel_char_idx_range frame
      (sample_coords width height (scales width height W H).1
        (scales width height W H).2 x y).1
      (sample_coords width height (scales width height W H).1
        (scales width height W H).2 x y).2
    exact ⟨y, x, _, by omega, by omega, by omega, by omega, rfl, hr.1, hr.2, rfl⟩

theorem frame_to_ascii_grid_witness :
    ∃ cells : List ScreenOp,
      frame_to_ascii ⟨fun _ => 200, 12, 0⟩ 4 3 6 2 = cells ++ [ScreenOp.refresh] ∧
      (cells.length : Int) = 6 * 2 ∧
      (∀ x y : Int, 0 ≤ x → x < 6 → 0 ≤ y → y < 2 →
        cells.countP (fun op => decide (op.cell = some (y, x))) = 1) ∧
      strlen ASCII_CHARS = 10 ∧
      (∀ op ∈ cells, ∃ y x i : Int, 0 ≤ x ∧ x < 6 ∧ 0 ≤ y ∧ y < 2 ∧
        i = pixel_char_idx ⟨fun _ => 200, 12, 0⟩
          (sample_coords 4 3 (scales 4 3 6 2).1 (scales 4 3 6 2).2 x y).1
          (sample_coords 4 3 (scales 4 3 6 2).1 (scales 4 3 6 2).2 x y).2 ∧
        0 ≤ i ∧ i < strlen ASCII_CHARS ∧
        op = ScreenOp.mvaddch y x (ASCII_CHARS.getD i.toNat (Char.ofNat 0))) :=
  frame_to_ascii_grid ⟨fun _ => 200, 12, 0⟩ 4 3 6 2 (by decide) (by decide)


/-! ## Properties of `init_player` and `queue_audio` -/

theorem to_int_of_fits {v : Int} (h1 : INT_MIN ≤ v) (h2 : v ≤ INT_MAX) : to_int v = v := by
  unfold to_int
  unfold INT_MIN at h1
  unfold INT_MAX at h2
  omega

theorem queue_audio_preserves (state : PlayerState) (inp : AVFrame) (rep : AudioReplies) :
    (queue_audio state inp rep).1.audio_dev = state.audio_dev ∧
    (queue_audio state inp rep).1.out_sample_rate = state.out_sample_rate ∧
    (queue_audio state inp rep).1.audio_codec_ctx = state.audio_codec_ctx := by
  by_cases hdev : state.audio_dev = 0
  · simp [queue_audio, hdev]
  · by_cases hc : rep.converted < 0 <;>
      by_cases hg : dst_nb_samples state inp rep > state.max_dst_nb_samples <;>
      simp [queue_audio, grow_audio_buffer, hdev, hc, hg]

theorem dst_nb_samples_congr {s t : PlayerState} (h1 : s.out_sample_rate = t.out_sample_rate)
    (h2 : s.audio_codec_ctx = t.audio_codec_ctx) (inp : AVFrame) (rep : AudioReplies) :
    dst_nb_samples s inp rep = dst_nb_samples t inp rep := by
  unfold dst_nb_samples PlayerState.in_sample_rate
  rw [h1, h2]

theorem dst_nb_samples_queue_audio (state : PlayerState) (inp : AVFrame) (rep : AudioReplies)
    (inp2 : AVFrame) (rep2 : AudioReplies) :
    dst_nb_samples (queue_audio state inp rep).1 inp2 rep2 = dst_nb_samples state inp2 rep2 :=
  dst_nb_samples_congr (queue_audio_preserves state inp rep).2.1
    (queue_audio_preserves state inp rep).2.2 inp2 rep2

/-- The mark after one call with an open device. -/
theorem mark_after_queue_audio (state : PlayerState) (inp : AVFrame) (rep : AudioReplies)
    (hdev : state.audio_dev ≠ 0) :
    (queue_audio state inp rep).1.max_dst_nb_samples =
      if dst_nb_samples state inp rep > state.max_dst_nb_samples
      then to_int (dst_nb_samples state inp rep) else state.max_dst_nb_samples := by
  by_cases hc : rep.converted < 0 <;>
    by_cases hg : dst_nb_samples state inp rep > state.max_dst_nb_samples <;>
    simp [queue_audio, grow_audio_buffer, hdev, hc, hg]

theorem queue_audio_seq_append (state : PlayerState) (pre post : List (AVFrame × AudioReplies)) :
    queue_audio_seq state (pre ++ post) =
      ((queue_audio_seq (queue_audio_seq state pre).1 post).1,
       (queue_audio_seq state pre).2 ++ (queue_audio_seq (queue_audio_seq state pre).1 post).2) := by
  induction pre generalizing state with
  | nil => simp [queue_audio_seq]
  | cons c rest ih => simp [queue_audio_seq, ih]

theorem queue_audio_seq_mark_le (calls : List (AVFrame × AudioReplies)) :
    ∀ state : PlayerState, state.audio_dev ≠ 0 → INT_MIN ≤ state.max_dst_nb_samples →
      (∀ c ∈ calls, dst_nb_samples state c.1 c.2 ≤ INT_MAX) →
      state.max_dst_nb_samples ≤ (queue_audio_seq state calls).1.max_dst_nb_samples ∧
      (queue_audio_seq state calls).1.audio_dev ≠ 0 ∧
      (∀ inp rep, dst_nb_samples (queue_audio_seq state calls).1 inp rep
        = dst_nb_samples state inp rep) := by
  induction calls with
  | nil => intro state hdev hm _; simp [queue_audio_seq, hdev]
  | cons c rest ih =>
    intro state hdev hm hfit
    have hc := hfit c (List.mem_cons_self _ _)
    have hstep := mark_after_queue_audio state c.1 c.2 hdev
    have hpres := queue_audio_preserves state c.1 c.2
    have hle : state.max_dst_nb_samples ≤ (queue_audio state c.1 c.2).1.max_dst_nb_samples := by
      rw [hstep]
      split_ifs with hgt
      · rw [to_int_of_fits (by omega) hc]; omega
      · exact le_refl _
    have hrec := ih (queue_audio state c.1 c.2).1 (by rw [hpres.1]; exact hdev)
      (le_trans hm hle)
      (fun d hd => by
        rw [dst_nb_samples_queue_audio]
        exact hfit d (List.mem_cons_of_mem _ hd))
    refine ⟨le_trans hle hrec.1, hrec.2.1, ?_⟩
    intro inp rep
    simp only [queue_audio_seq]
    rw [hrec.2.2, dst_nb_samples_queue_audio]

/-- C6 (as amended): with an open audio device, when the required output sample count
fits in `int` the mark `max_dst_nb_samples` after a call of `queue_audio` equals that
count if it exceeds the mark before the call and is unchanged otherwise; over any
sequence of calls whose required counts fit in `int` the mark never decreases. -/
theorem queue_audio_mark (state : PlayerState) (inp : AVFrame) (rep : AudioReplies)
    (hdev : state.audio_dev ≠ 0) (hmark : INT_MIN ≤ state.max_dst_nb_samples)
    (hfit : dst_nb_samples state inp rep ≤ INT_MAX) :
    (queue_audio state inp rep).1.max_dst_nb_samples =
      (if dst_nb_samples state inp rep > state.max_dst_nb_samples
       then dst_nb_samples state inp rep else state.max_dst_nb_samples) ∧
    (∀ pre post : List (AVFrame × AudioReplies),
      (∀ c ∈ pre ++ post, dst_nb_samples state c.1 c.2 ≤ INT_MAX) →
      (queue_audio_seq state pre).1.max_dst_nb_samples
        ≤ (queue_audio_seq state (pre ++ post)).1.max_dst_nb_samples) := by
  constructor
  · rw [mark_after_queue_audio state inp rep hdev]
    split_ifs with hgt
    · exact to_int_of_fits (by omega) hfit
    · rfl
  · intro pre post hall
    rw [queue_audio_seq_append]
    have hpre := queue_audio_seq_mark_le pre state hdev hmark
      (fun c hc => hall c (List.mem_append_left _ hc))
    have hpost := queue_audio_seq_mark_le post (queue_audio_seq state pre).1 hpre.2.1
      (le_trans hmark hpre.1)
      (fun c hc => by rw [hpre.2.2]; exact hall c (List.mem_append_right _ hc))
    exact hpost.1


theorem queue_audio_mark_witness :
    (queue_audio (init_player PlayerState.zero (session_env 22050 44100 2)).2
        (audio_frame 100) ⟨0, true, 200, 0⟩).1.max_dst_nb_samples =
      (if dst_nb_samples (init_player PlayerState.zero (session_env 22050 44100 2)).2
            (audio_frame 100) ⟨0, true, 200, 0⟩
          > (init_player PlayerState.zero (session_env 22050 44100 2)).2.max_dst_nb_samples
       then dst_nb_samples (init_player PlayerState.zero (session_env 22050 44100 2)).2
            (audio_frame 100) ⟨0, true, 200, 0⟩
       else (init_player PlayerState.zero (session_env 22050 44100 2)).2.max_dst_nb_samples) ∧
    (∀ pre post : List (AVFrame × AudioReplies),
      (∀ c ∈ pre ++ post,
        dst_nb_samples (init_player PlayerState.zero (session_env 22050 44100 2)).2 c.1 c.2
          ≤ INT_MAX) →
      (queue_audio_seq (init_player PlayerState.zero (session_env 22050 44100 2)).2
          pre).1.max_dst_nb_samples
        ≤ (queue_audio_seq (init_player PlayerState.zero (session_env 22050 44100 2)).2
          (pre ++ post)).1.max_dst_nb_samples) :=
  queue_audio_mark (init_player PlayerState.zero (session_env 22050 44100 2)).2
    (audio_frame 100) ⟨0, true, 200, 0⟩ (by decide) (by decide) (by decide)

/-- C6 (as stated) fails when the required count leaves the range of `int`: in a
session resampling 22050 Hz to 44100 Hz, a frame of 2^30 samples requires 2^31 output
samples, more than the mark 0, and the call leaves the mark at -2^31. -/
theorem mark_wraps_above_int_max :
    (init_player PlayerState.zero (session_env 22050 44100 2)).2.audio_dev ≠ 0 ∧
    (init_player PlayerState.zero (session_env 22050 44100 2)).2.max_dst_nb_samples = 0 ∧
    dst_nb_samples (init_player PlayerState.zero (session_env 22050 44100 2)).2
      (audio_frame 1073741824) ⟨0, true, 0, 0⟩ = 2147483648 ∧
    (queue_audio (init_player PlayerState.zero (session_env 22050 44100 2)).2
      (audio_frame 1073741824) ⟨0, true, 0, 0⟩).1.max_dst_nb_samples = -2147483648 := by
  decide


/-- C7: the state `init_player` leaves holds a buffer of 1024 samples with the mark at
0, so the first call of `queue_audio`, here for a frame of 1024 samples at 48000 Hz
that needs 941 output samples (fewer than the buffer holds), reallocates the buffer
and shrinks it from 1024 to 941 samples. -/
theorem first_call_shrinks_buffer :
    (init_player PlayerState.zero (session_env 48000 44100 2)).1 = 0 ∧
    (init_player PlayerState.zero (session_env 48000 44100 2)).2.audio_dst_data
      = some ⟨2, 1024⟩ ∧
    (init_player PlayerState.zero (session_env 48000 44100 2)).2.max_dst_nb_samples = 0 ∧
    dst_nb_samples (init_player PlayerState.zero (session_env 48000 44100 2)).2
      (audio_frame 1024) ⟨0, true, 941, 0⟩ = 941 ∧
    (queue_audio (init_player PlayerState.zero (session_env 48000 44100 2)).2
      (audio_frame 1024) ⟨0, true, 941, 0⟩).2
      = [AudioEvent.samples_alloc 2 941, AudioEvent.swr_convert 941 (some ⟨2, 941⟩),
         AudioEvent.SDL_QueueAudio 3764] ∧
    (queue_audio (init_player PlayerState.zero (session_env 48000 44100 2)).2
      (audio_frame 1024) ⟨0, true, 941, 0⟩).1.audio_dst_data = some ⟨2, 941⟩ := by
  decide

/-- C8 (as stated) fails: for a container whose video stream decodes and whose audio
stream has an unsupported codec, `init_player` returns -1. -/
theorem unsupported_audio_returns_error :
    unsupported_audio_env.open_input_ok = true ∧
    unsupported_audio_env.stream_info_ok = true ∧
    (scan_streams unsupported_audio_env.streams 0 (-1, -1)) = (0, 1) ∧
    (codecpar unsupported_audio_env 0).decoder_found = true ∧
    (codecpar unsupported_audio_env 0).open_ok = true ∧
    (codecpar unsupported_audio_env 1).decoder_found = false ∧
    (init_player PlayerState.zero unsupported_audio_env).1 = -1 := by
  decide

/-- C8 (as amended): for every container that opens, has stream info and a video
stream with a supported, openable codec, `init_player` returns -1 when the first audio
stream's codec is unsupported; it returns 0 with no audio decoder and no audio device
when the container has no audio stream at all. -/
theorem unsupported_audio_codec_rejected (env : InitEnv)
    (hopen : env.open_input_ok = true) (hinfo : env.stream_info_ok = true)
    (hvideo : (scan_streams env.streams 0 (-1, -1)).1 ≠ -1)
    (hfound : (codecpar env (scan_streams env.streams 0 (-1, -1)).1).decoder_found = true)
    (hopens : (codecpar env (scan_streams env.streams 0 (-1, -1)).1).open_ok = true) :
    ((scan_streams env.streams 0 (-1, -1)).2 ≠ -1 →
      (codecpar env (scan_streams env.streams 0 (-1, -1)).2).decoder_found = false →
      (init_player PlayerState.zero env).1 = -1) ∧
    ((scan_streams env.streams 0 (-1, -1)).2 = -1 →
      (init_player PlayerState.zero env).1 = 0 ∧
      (init_player PlayerState.zero env).2.audio_codec_ctx = none ∧
      (init_player PlayerState.zero env).2.audio_dev = 0) := by
  constructor
  · intro ha hnf
    simp [init_player, init_player_audio, hopen, hinfo, hvideo, hfound, hopens, ha, hnf]
  · intro ha
    simp [init_player, hopen, hinfo, hvideo, hfound, hopens, ha, PlayerState.zero]

theorem unsupported_audio_codec_rejected_witness :
    (init_player PlayerState.zero unsupported_audio_env).1 = -1 :=
  (unsupported_audio_codec_rejected unsupported_audio_env (by decide) (by decide) (by decide)
    (by decide) (by decide)).1 (by decide) (by decide)

theorem init_player_audio_ok (state : PlayerState) (env : InitEnv)
    (h : (init_player_audio state env).1 = 0) :
    (init_player_audio state env).2.audio_dst_data = some ⟨2, 1024⟩ ∧
    (init_player_audio state env).2.max_dst_nb_samples = 0 ∧
    (init_player_audio state env).2.audio_dev ≠ 0 := by
  unfold init_player_audio at h ⊢
  by_cases h1 : (codecpar env state.audio_stream_index).decoder_found = true
  swap
  · simp [h1] at h
  by_cases h2 : (codecpar env state.audio_stream_index).open_ok = true
  swap
  · simp [h1, h2] at h
  by_cases h3 : env.swr_alloc_ok = true
  swap
  · simp [h1, h2, h3] at h
  by_cases h4 : env.swr_init_ok = true
  swap
  · simp [h1, h2, h3, h4] at h
  by_cases h5 : env.sdl_init_ok = true
  swap
  · simp [h1, h2, h3, h4, h5] at h
  by_cases h6 : env.audio_dev = 0
  · simp [h1, h2, h3, h4, h5, h6, SDL_OpenAudioDevice] at h
  by_cases h7 : env.samples_alloc_ok = true
  swap
  · simp [h1, h2, h3, h4, h5, h6, h7, SDL_OpenAudioDevice] at h
  simp [h1, h2, h3, h4, h5, h6, h7, SDL_OpenAudioDevice]

theorem init_player_audio_buffer (st : PlayerState) (env : InitEnv) (s0 : PlayerState)
    (h : init_player st env = (0, s0)) (hd : s0.audio_dev ≠ 0) :
    s0.audio_dst_data = some ⟨2, 1024⟩ ∧ s0.max_dst_nb_samples = 0 := by
  unfold init_player at h
  by_cases h1 : env.open_input_ok = true
  swap
  · simp [h1] at h
  by_cases h2 : env.stream_info_ok = true
  swap
  · simp [h1, h2] at h
  by_cases h3 : (scan_streams env.streams 0 (-1, -1)).1 = -1
  · simp [h1, h2, h3] at h
  by_cases h4 : (codecpar env (scan_streams env.streams 0 (-1, -1)).1).decoder_found = true
  swap
  · simp [h1, h2, h3, h4] at h
  by_cases h5 : (codecpar env (scan_streams env.streams 0 (-1, -1)).1).open_ok = true
  swap
  · simp [h1, h2, h3, h4, h5] at h
  simp only [h1, h2, h3, h4, h5, not_true_eq_false, if_false] at h
  by_cases h6 : (scan_streams env.streams 0 (-1, -1)).2 = -1
  · simp [h6] at h
    rw [← h] at hd
    simp at hd
  · simp only [ne_eq, h6, not_false_eq_true, if_true] at h
    generalize hr : init_player_audio _ env = r at h
    by_cases h7 : r.1 = 0
    · have hok := init_player_audio_ok _ env (by rw [hr]; exact h7)
      rw [hr] at hok
      simp only [h7, not_true_eq_false, if_false, Prod.mk.injEq, true_and] at h
      rw [← h]
      exact ⟨hok.1, hok.2.1⟩
    · simp only [h7, not_false_eq_true, if_true] at h
      rw [h] at h7
      simp at h7


theorem queue_audio_convert_fits (state : PlayerState) (inp : AVFrame) (rep : AudioReplies)
    (b : SampleBuffer) (hdev : state.audio_dev ≠ 0) (hb : state.audio_dst_data = some b)
    (hcap : state.max_dst_nb_samples ≤ b.nb_samples) (halloc : rep.alloc_ok = true)
    (h1 : INT_MIN ≤ dst_nb_samples state inp rep) (h2 : dst_nb_samples state inp rep ≤ INT_MAX) :
    (∃ b2, (queue_audio state inp rep).1.audio_dst_data = some b2 ∧
      (queue_audio state inp rep).1.max_dst_nb_samples ≤ b2.nb_samples) ∧
    (∀ n d, AudioEvent.swr_convert n d ∈ (queue_audio state inp rep).2 →
      ∃ b2, d = some b2 ∧ n ≤ b2.nb_samples) := by
  have hfit := to_int_of_fits h1 h2
  by_cases hc : rep.converted < 0 <;>
    by_cases hg : dst_nb_samples state inp rep > state.max_dst_nb_samples
  all_goals
    simp only [queue_audio, grow_audio_buffer, hdev, hc, hg, halloc, hfit, hb, if_true,
      if_false, List.nil_append, List.singleton_append, List.mem_cons, List.mem_singleton,
      AudioEvent.swr_convert.injEq, List.not_mem_nil, or_false, false_or, reduceCtorEq]
  all_goals constructor
  all_goals first
    | exact ⟨_, rfl, le_refl _⟩
    | exact ⟨b, rfl, hcap⟩
    | (rintro n d ⟨rfl, rfl⟩
       first
         | exact ⟨_, rfl, le_refl _⟩
         | exact ⟨b, rfl, by omega⟩)

theorem queue_audio_seq_convert_fits (calls : List (AVFrame × AudioReplies)) :
    ∀ (state : PlayerState) (b : SampleBuffer), state.audio_dev ≠ 0 →
      state.audio_dst_data = some b → state.max_dst_nb_samples ≤ b.nb_samples →
      (∀ c ∈ calls, c.2.alloc_ok = true) →
      (∀ c ∈ calls, INT_MIN ≤ dst_nb_samples state c.1 c.2 ∧
        dst_nb_samples state c.1 c.2 ≤ INT_MAX) →
      ∀ n d, AudioEvent.swr_convert n d ∈ (queue_audio_seq state calls).2 →
        ∃ b2, d = some b2 ∧ n ≤ b2.nb_samples := by
  induction calls with
  | nil => intro state b _ _ _ _ _ n d h; simp [queue_audio_seq] at h
  | cons c rest ih =>
    intro state b hdev hb hcap halloc hfit n d hmem
    have hc := hfit c (List.mem_cons_self _ _)
    have hstep := queue_audio_convert_fits state c.1 c.2 b hdev hb hcap
      (halloc c (List.mem_cons_self _ _)) hc.1 hc.2
    simp only [queue_audio_seq, List.mem_append] at hmem
    rcases hmem with hmem | hmem
    · exact hstep.2 n d hmem
    · obtain ⟨b2, hb2, hcap2⟩ := hstep.1
      exact ih (queue_audio state c.1 c.2).1 b2
        (by rw [(queue_audio_preserves state c.1 c.2).1]; exact hdev) hb2 hcap2
        (fun e he => halloc e (List.mem_cons_of_mem _ he))
        (fun e he => by
          rw [dst_nb_samples_queue_audio]
          exact hfit e (List.mem_cons_of_mem _ he))
        n d hmem

/-- C10: starting from the state `init_player` establishes for a session with audio
(a buffer of 1024 samples, the mark at 0), when every allocation succeeds and every
required sample count fits in `int`, each conversion in a sequence of `queue_audio`
calls is passed an output sample count that is at most the capacity in samples of the
buffer it writes to. -/
theorem convert_within_capacity (st : PlayerState) (env : InitEnv) (s0 : PlayerState)
    (calls : List (AVFrame × AudioReplies))
    (hinit : init_player st env = (0, s0)) (haudio : s0.audio_dev ≠ 0)
    (halloc : ∀ c ∈ calls, c.2.alloc_ok = true)
    (hfit : ∀ c ∈ calls, INT_MIN ≤ dst_nb_samples s0 c.1 c.2 ∧
      dst_nb_samples s0 c.1 c.2 ≤ INT_MAX) :
    ∀ n d, AudioEvent.swr_convert n d ∈ (queue_audio_seq s0 calls).2 →
      ∃ b, d = some b ∧ n ≤ b.nb_samples := by
  have hbuf := init_player_audio_buffer st env s0 hinit haudio
  exact queue_audio_seq_convert_fits calls s0 ⟨2, 1024⟩ haudio hbuf.1
    (by rw [hbuf.2]; decide) halloc hfit

theorem convert_within_capacity_witness :
    (init_player PlayerState.zero (session_env 22050 44100 2)).2.audio_dev ≠ 0 ∧
    ∀ n d, AudioEvent.swr_convert n d ∈
        (queue_audio_seq (init_player PlayerState.zero (session_env 22050 44100 2)).2
          [(audio_frame 100, ⟨0, true, 200, 0⟩), (audio_frame 2000, ⟨16, true, 4000, 0⟩),
           (audio_frame 50, ⟨3, true, 100, 0⟩)]).2 →
      ∃ b, d = some b ∧ n ≤ b.nb_samples :=
  ⟨by decide,
   convert_within_capacity PlayerState.zero (session_env 22050 44100 2)
    (init_player PlayerState.zero (session_env 22050 44100 2)).2
    [(audio_frame 100, ⟨0, true, 200, 0⟩), (audio_frame 2000, ⟨16, true, 4000, 0⟩),
     (audio_frame 50, ⟨3, true, 100, 0⟩)]
    (by decide) (by decide) (by decide) (by decide)⟩

/-! ## Properties of the playback loop -/

theorem video_receive_loop_holds (w : World δv δa) (usec : Nat) (d2 : δv)
    (frames : List AVFrame) :
    ∀ (fuel : Nat) (ses : Session δv δa), w.video.Holds ses.vdec frames d2 →
      frames.length < fuel →
      video_receive_loop w usec fuel ses =
        some { ses with vdec := d2, n_view := ses.n_view + frames.length,
                        trace := ses.trace ++
                          (List.enumFrom ses.n_view frames).flatMap fun p =>
                            (frame_to_ascii (w.sws_scale p.2) ses.state.width ses.state.height
                              (w.getmaxyx p.1).2 (w.getmaxyx p.1).1).map Event.screen
                            ++ [Event.usleep usec] } := by
  induction frames with
  | nil =>
    intro fuel ses h hf
    obtain ⟨n, rfl⟩ : ∃ n, fuel = n + 1 := ⟨fuel - 1, by simp at hf; omega⟩
    simp only [Decoder.Holds] at h
    simp [video_receive_loop, h.1, h.2]
  | cons f rest ih =>
    intro fuel ses h hf
    obtain ⟨n, rfl⟩ : ∃ n, fuel = n + 1 := ⟨fuel - 1, by simp at hf; omega⟩
    simp only [Decoder.Holds] at h
    simp only [video_receive_loop, h.1, if_true]
    rw [ih n (render w { ses with vdec := (w.video.receive_frame ses.vdec).2.2 }
      (w.video.receive_frame ses.vdec).2.1 usec) h.2.2 (by simp at hf; omega)]
    simp [render, render_events, List.enumFrom_cons, h.2.1, List.append_assoc, Nat.add_assoc,
      Nat.add_comm 1]

theorem session_queue_audio_trace (w : World δv δa) (ses : Session δv δa) (f : AVFrame) :
    ∃ rest, (session_queue_audio w ses f).trace = ses.trace ++ rest :=
  ⟨_, rfl⟩

theorem audio_flush_loop_trace (w : World δv δa) :
    ∀ (fuel : Nat) (ses final : Session δv δa), audio_flush_loop w fuel ses = some final →
      ∃ rest, final.trace = ses.trace ++ rest := by
  intro fuel
  induction fuel with
  | zero => intro ses final h; simp [audio_flush_loop] at h
  | succ n ih =>
    intro ses final h
    simp only [audio_flush_loop] at h
    split_ifs at h with hr
    · obtain ⟨rest, hrest⟩ := ih _ _ h
      exact ⟨_, by rw [hrest]; simp only [session_queue_audio, List.append_assoc]; rfl⟩
    · simp only [Option.some.injEq] at h
      subst h
      exact ⟨[], by simp⟩

theorem audio_wait_loop_trace (w : World δv δa) :
    ∀ (fuel : Nat) (ses final : Session δv δa), audio_wait_loop w fuel ses = some final →
      ∃ rest, final.trace = ses.trace ++ rest := by
  intro fuel
  induction fuel with
  | zero => intro ses final h; simp [audio_wait_loop] at h
  | succ n ih =>
    intro ses final h
    simp only [audio_wait_loop] at h
    split_ifs at h with h1 h2
    · simp only [Option.some.injEq] at h
      subst h
      exact ⟨_, by simp only [List.append_assoc]; rfl⟩
    · obtain ⟨rest, hrest⟩ := ih _ _ h
      exact ⟨_, by rw [hrest]; simp only [List.append_assoc]; rfl⟩
    · simp only [Option.some.injEq] at h
      subst h
      exact ⟨_, rfl⟩

theorem flush_audio_trace (w : World δv δa) (fuel : Nat) (ses final : Session δv δa)
    (h : flush_audio w fuel ses = some final) : ∃ rest, final.trace = ses.trace ++ rest := by
  unfold flush_audio at h
  simp only [Option.bind_eq_some] at h
  obtain ⟨mid, hmid, hfin⟩ := h
  have h1 : ∃ rest, mid.trace = ses.trace ++ rest := by
    split_ifs at hmid with ha hr
    · obtain ⟨rest, hrest⟩ := audio_flush_loop_trace w fuel _ _ hmid
      exact ⟨_, by rw [hrest]; simp only [List.append_assoc]; rfl⟩
    · simp only [Option.some.injEq] at hmid
      subst hmid
      exact ⟨_, rfl⟩
    · simp only [Option.some.injEq] at hmid
      subst hmid
      exact ⟨[], by simp⟩
  have h2 : ∃ rest, final.trace = mid.trace ++ rest := by
    split_ifs at hfin with hd
    · exact audio_wait_loop_trace w fuel _ _ hfin
    · simp only [Option.some.injEq] at hfin
      subst hfin
      exact ⟨[], by simp⟩
  obtain ⟨r1, hr1⟩ := h1
  obtain ⟨r2, hr2⟩ := h2
  exact ⟨r1 ++ r2, by rw [hr2, hr1, List.append_assoc]⟩

theorem flush_audio_no_audio (w : World δv δa) (fuel : Nat) (ses : Session δv δa)
    (hctx : ses.state.audio_codec_ctx = none) (hdev : ses.state.audio_dev = 0) :
    flush_audio w fuel ses = some ses := by
  simp [flush_audio, hctx, hdev]


/-- C4: in an iteration of the loop where no quit key is polled and the media source
reports the end of the stream, for every video decoder that accepts the flush marker
and then returns the frames `frames` before reporting that none remain, the flush
branch (given more fuel than there are frames) handles every one of those frames, in
order: it converts the frame with `sws_scale`, makes the surface calls of
`frame_to_ascii` on the converted frame for the viewport then reported (one glyph per
cell of that viewport, then one `refresh`), and sleeps 33000 microseconds. The audio
flush, the wait for the audio sink and the exit from the
loop come after that, and a session without audio leaves the loop right then. -/
theorem flush_renders_all_frames (w : World δv δa) (ses : Session δv δa)
    (frames : List AVFrame) (d2 : δv) (fuel : Nat)
    (hrun : ses.state.quit = 0)
    (hkey : w.getch ses.n_getch ≠ 113 ∧ w.getch ses.n_getch ≠ 81)
    (heof : w.av_read_frame ses.n_read = none)
    (hsend : (w.video.send_packet ses.vdec none).1 = 0)
    (hheld : w.video.Holds (w.video.send_packet ses.vdec none).2 frames d2)
    (hfuel : frames.length < fuel) :
    ∃ ses0 ses1 : Session δv δa,
      ses0.trace = ses.trace
        ++ [Event.getch (w.getch ses.n_getch), Event.av_read_frame none] ∧
      ses0.state = ses.state ∧ ses0.vdec = ses.vdec ∧ ses0.n_view = ses.n_view ∧
      flush_video w fuel ses0 = some ses1 ∧
      ses1.trace = ses0.trace ++ [Event.send_video none 0]
        ++ (List.enumFrom ses.n_view frames).flatMap (fun p =>
            (frame_to_ascii (w.sws_scale p.2) ses.state.width ses.state.height
              (w.getmaxyx p.1).2 (w.getmaxyx p.1).1).map Event.screen
            ++ [Event.usleep 33000]) ∧
      (∀ p ∈ List.enumFrom ses.n_view frames, ∃ cells : List ScreenOp,
        frame_to_ascii (w.sws_scale p.2) ses.state.width ses.state.height
          (w.getmaxyx p.1).2 (w.getmaxyx p.1).1 = cells ++ [ScreenOp.refresh] ∧
        cells.length = (w.getmaxyx p.1).1.toNat * (w.getmaxyx p.1).2.toNat ∧
        ScreenOp.refresh ∉ cells) ∧
      ses1.state = ses.state ∧ ses1.vdec = d2 ∧
      main_loop w (fuel + 1) ses = flush_audio w fuel ses1 ∧
      (∀ final, main_loop w (fuel + 1) ses = some final →
        ∃ rest, final.trace = ses1.trace ++ rest) ∧
      (ses.state.audio_codec_ctx = none → ses.state.audio_dev = 0 →
        main_loop w (fuel + 1) ses = some ses1) := by
  have hloop := video_receive_loop_holds w 33000 d2 frames fuel
    { ses with n_getch := ses.n_getch + 1, n_read := ses.n_read + 1,
               vdec := (w.video.send_packet ses.vdec none).2,
               trace := ses.trace ++ [Event.getch (w.getch ses.n_getch)]
                 ++ [Event.av_read_frame none]
                 ++ [Event.send_video none (w.video.send_packet ses.vdec none).1] }
    hheld hfuel
  rw [hsend] at hloop
  have hvideo : flush_video w fuel
      { ses with n_getch := ses.n_getch + 1, n_read := ses.n_read + 1,
                 trace := ses.trace ++ [Event.getch (w.getch ses.n_getch)]
                   ++ [Event.av_read_frame none] } = some
      { ses with n_getch := ses.n_getch + 1, n_read := ses.n_read + 1, vdec := d2,
                 n_view := ses.n_view + frames.length,
                 trace := ses.trace ++ [Event.getch (w.getch ses.n_getch)]
                   ++ [Event.av_read_frame none]
                   ++ [Event.send_video none 0]
                   ++ (List.enumFrom ses.n_view frames).flatMap fun p =>
                      (frame_to_ascii (w.sws_scale p.2) ses.state.width ses.state.height
                        (w.getmaxyx p.1).2 (w.getmaxyx p.1).1).map Event.screen
                      ++ [Event.usleep 33000] } := by
    simp only [flush_video, hsend, if_true]
    rw [hloop]
  have hmain : main_loop w (fuel + 1) ses = flush_audio w fuel
      { ses with n_getch := ses.n_getch + 1, n_read := ses.n_read + 1, vdec := d2,
                 n_view := ses.n_view + frames.length,
                 trace := ses.trace ++ [Event.getch (w.getch ses.n_getch)]
                   ++ [Event.av_read_frame none]
                   ++ [Event.send_video none 0]
                   ++ (List.enumFrom ses.n_view frames).flatMap fun p =>
                      (frame_to_ascii (w.sws_scale p.2) ses.state.width ses.state.height
                        (w.getmaxyx p.1).2 (w.getmaxyx p.1).1).map Event.screen
                      ++ [Event.usleep 33000] } := by
    simp only [main_loop, hrun, ne_eq, not_true_eq_false, if_false, hkey.1, hkey.2, or_self,
      heof]
    rw [hvideo]
    rfl
  refine Exists.intro
    ({ ses with n_getch := ses.n_getch + 1, n_read := ses.n_read + 1,
                trace := ses.trace ++ [Event.getch (w.getch ses.n_getch)]
                  ++ [Event.av_read_frame none] } : Session δv δa)
    (Exists.intro
      ({ ses with n_getch := ses.n_getch + 1, n_read := ses.n_read + 1, vdec := d2,
                  n_view := ses.n_view + frames.length,
                  trace := ses.trace ++ [Event.getch (w.getch ses.n_getch)]
                    ++ [Event.av_read_frame none]
                    ++ [Event.send_video none 0]
                    ++ (List.enumFrom ses.n_view frames).flatMap fun p =>
                       (frame_to_ascii (w.sws_scale p.2) ses.state.width ses.state.height
                         (w.getmaxyx p.1).2 (w.getmaxyx p.1).1).map Event.screen
                       ++ [Event.usleep 33000] } : Session δv δa)
      ⟨?_, rfl, rfl, rfl, hvideo, ?_, ?_, rfl, rfl, hmain, ?_, ?_⟩)
  · simp
  · simp
  · intro p _
    exact frame_to_ascii_shape _ _ _ _ _
  · intro final hfinal
    rw [hmain] at hfinal
    exact flush_audio_trace w fuel _ final hfinal
  · intro hctx hdev
    rw [hmain]
    exact flush_audio_no_audio w fuel _ hctx hdev

theorem flush_renders_all_frames_witness :
    (demo_world (-1) 0).video.Holds
      ((demo_world (-1) 0).video.send_packet [audio_frame 1, audio_frame 2] none).2
      [audio_frame 1, audio_frame 2] [] ∧
    ∃ ses0 ses1 : Session (List AVFrame) (List AVFrame),
      ses0.trace = [] ++ [Event.getch (-1), Event.av_read_frame none] ∧
      flush_video (demo_world (-1) 0) 3 ses0 = some ses1 ∧
      ses1.trace = ses0.trace ++ [Event.send_video none 0]
        ++ ((frame_to_ascii (audio_frame 1) 640 480 80 24).map Event.screen
            ++ [Event.usleep 33000])
        ++ ((frame_to_ascii (audio_frame 2) 640 480 80 24).map Event.screen
            ++ [Event.usleep 33000]) ∧
      ses1.vdec = [] ∧
      main_loop (demo_world (-1) 0) (3 + 1)
          (demo_session (init_player PlayerState.zero (session_env 44100 44100 2)).2
            [audio_frame 1, audio_frame 2])
        = flush_audio (demo_world (-1) 0) 3 ses1 := by
  refine ⟨⟨rfl, rfl, rfl, rfl, by decide, rfl⟩, ?_⟩
  obtain ⟨ses0, ses1, h0, _, _, _, hv, h1, _, _, hd, hm, _, _⟩ :=
    flush_renders_all_frames (demo_world (-1) 0)
      (demo_session (init_player PlayerState.zero (session_env 44100 44100 2)).2
        [audio_frame 1, audio_frame 2])
      [audio_frame 1, audio_frame 2] [] 3 (by decide) (by decide) rfl rfl
      ⟨rfl, rfl, rfl, rfl, by decide, rfl⟩ (by decide)
  refine ⟨ses0, ses1, h0, hv, ?_, hd, hm⟩
  rw [h1]
  simp [List.enumFrom, demo_session, demo_world, List.append_assoc]
  rfl

/-- C5: whenever the key polled at the start of a running iteration is `q` (113) or
`Q` (81), the loop sets `quit` and is left at once: the only call made is that key
poll, so no further packet is pulled, no flush marker is sent to either decoder and the
queued byte count of the audio sink is never polled, whatever it would report. -/
theorem quit_key_leaves_loop (w : World δv δa) (ses : Session δv δa) (fuel : Nat)
    (hrun : ses.state.quit = 0)
    (hkey : w.getch ses.n_getch = 113 ∨ w.getch ses.n_getch = 81) :
    main_loop w (fuel + 1) ses =
      some { ses with state := { ses.state with quit := 1 },
                      n_getch := ses.n_getch + 1,
                      trace := ses.trace ++ [Event.getch (w.getch ses.n_getch)] } := by
  simp only [main_loop, hrun, ne_eq, not_true_eq_false, if_false, hkey, if_true]

theorem quit_key_leaves_loop_witness :
    (demo_session (init_player PlayerState.zero (session_env 44100 44100 2)).2
      [audio_frame 1]).state.quit = 0 ∧
    main_loop (demo_world 113 4096) (0 + 1)
        (demo_session (init_player PlayerState.zero (session_env 44100 44100 2)).2
          [audio_frame 1]) =
      some { demo_session (init_player PlayerState.zero (session_env 44100 44100 2)).2
              [audio_frame 1] with
             state := { (demo_session (init_player PlayerState.zero
                          (session_env 44100 44100 2)).2 [audio_frame 1]).state with quit := 1 },
             n_getch := 0 + 1,
             trace := [] ++ [Event.getch ((demo_world 113 4096).getch 0)] } :=
  ⟨by decide, quit_key_leaves_loop (demo_world 113 4096)
    (demo_session (init_player PlayerState.zero (session_env 44100 44100 2)).2
      [audio_frame 1]) 0 (by decide) (Or.inl rfl)⟩

end BeWaterMyFriend
